import Mathlib

/-!
Shallow embedding of the UTG training scripts (src/dtdg_egcno_original.py and
src/dtdg_gclstm.py) and proofs about their orchestration logic: the snapshot
feed shift, the per-epoch loss accumulation and single optimizer step, the
validation/test/early-stopping state machine, edge-attribute guards, the
training-time negative sampling range, and gradient-history (detach) handling
of the evaluation state.

External collaborators (the recurrent GCN encoder, the link decoder, the
criterion, the benchmark negative sampler) are modelled as abstract function
parameters; the orchestration code of the scripts is translated faithfully.
Metric and loss values are rationals standing in for the scripts' floats.
-/

namespace UTG

/-! ## Common graph data and shared guards -/

/-- Edge list: one of the scripts' 2 x E edge_index tensors, as a list of
(source, destination) node-id pairs. -/
abbrev Edges := List (Nat × Nat)

/-- One slot of torch.randint(lo, hi, ...), as a function of a raw entropy
value: a draw from the integer range lo <= x < hi. -/
def randint (lo hi raw : Nat) : Nat := lo + raw % (hi - lo)

/-- Edge-attribute guard shared by every state-advancement site of both
scripts: when the split has no edge_attr entry, every feed edge gets the
default weight 1.0 (torch.ones); otherwise the site raises
NotImplementedError before advancing. -/
def edgeAttrOr (hasEdgeAttr : Bool) (count : Nat) : Except String (List ℚ) :=
  if hasEdgeAttr then Except.error "Edge attributes are not yet supported"
  else Except.ok (List.replicate count (1 : ℚ))

/-- State advancement at one snapshot: build the edge weights through the
edge-attribute guard, then run the encoder forward pass on the feed edges
with those weights.  Returns the new encoder state, the embedding, and the
weights that were used. -/
def advanceState {μ Emb : Type} (enc : μ → Edges → List ℚ → μ × Emb)
    (hasEdgeAttr : Bool) (m : μ) (feed : Edges) :
    Except String (μ × Emb × List ℚ) :=
  match edgeAttrOr hasEdgeAttr feed.length with
  | Except.error s => Except.error s
  | Except.ok attr => Except.ok ((enc m feed attr).1, (enc m feed attr).2, attr)

/-- Observable events of one training epoch, in program order. -/
inductive Ev
  | zeroGrad
  | advanceEv (feed : Edges)
  | lossAdd (v : ℚ)
  | backward (v : ℚ)
  | optStep
deriving DecidableEq

/-- Ordering property of an epoch's event list: every loss accumulation
happens before every optimizer step. -/
def stepAfterLosses (evs : List Ev) : Prop :=
  ∀ i j v, evs.get? i = some (Ev.lossAdd v) → evs.get? j = some Ev.optStep →
    i < j

lemma stepAfterLosses_append (A B : List Ev)
    (hA : Ev.optStep ∉ A) (hB : ∀ v, Ev.lossAdd v ∉ B) :
    stepAfterLosses (A ++ B) := by
  intro i j v hi hj
  have hjA : A.length ≤ j := by
    by_contra hlt
    rw [List.get?_append (by omega)] at hj
    exact hA (List.get?_mem hj)
  have hiA : i < A.length := by
    by_contra hge
    rw [List.get?_append_right (by omega)] at hi
    exact hB v (List.get?_mem hi)
  omega

/-! ## Early stopping / best-tracking run loop
Embeds the per-run epoch loop of src/dtdg_egcno_original.py lines 106-316:
the run record reset (lines 106-108), the improvement branch with its
test-split evaluation (lines 233-296), and the patience check (lines 297-308).
The per-epoch validation and test metrics are abstracted as functions of the
epoch number. -/

/-- Run record of one training run: best_val, best_test, best_epoch
(reset at lines 106-108 of dtdg_egcno_original.py). -/
structure RunRecord where
  bestVal : ℚ
  bestTest : ℚ
  bestEpoch : Nat
deriving DecidableEq

/-- Observable outcome of one executed epoch: its index, whether the
test-split evaluation ran in it, and the run record after the epoch. -/
structure EpochOutcome where
  epoch : Nat
  testRan : Bool
  recAfter : RunRecord
deriving DecidableEq

/-- Result of the epoch loop of one run: final record, the per-epoch trace,
and whether the loop was left through the patience break. -/
structure RunResult where
  record : RunRecord
  trace : List EpochOutcome
  stoppedEarly : Bool
deriving DecidableEq

/-- Prepend the outcome of the current epoch to the result of the remaining
epochs. -/
def consOutcome (o : EpochOutcome) (res : RunResult) : RunResult :=
  ⟨res.record, o :: res.trace, res.stoppedEarly⟩

/-- One run's epoch loop from epoch e with the given fuel (remaining epochs),
translated from dtdg_egcno_original.py lines 110 and 233-308:
if val_metrics > best_val then best_val is updated, the test evaluation runs
and best_test is set; then, if (epoch - best_epoch) >= patience and epoch > 1,
best_epoch is set to the current epoch and the loop breaks; otherwise
best_epoch is set to the current epoch and the loop continues.  Without
improvement nothing is updated and the loop continues. -/
def runFrom (valM testM : Nat → ℚ) (patience : Nat) (r : RunRecord) (e : Nat) :
    Nat → RunResult
  | 0 => ⟨r, [], false⟩
  | Nat.succ n =>
    if r.bestVal < valM e then
      if patience ≤ e - r.bestEpoch ∧ 1 < e then
        ⟨⟨valM e, testM e, e⟩, [⟨e, true, ⟨valM e, testM e, e⟩⟩], true⟩
      else
        consOutcome ⟨e, true, ⟨valM e, testM e, e⟩⟩
          (runFrom valM testM patience ⟨valM e, testM e, e⟩ (e + 1) n)
    else
      consOutcome ⟨e, false, r⟩ (runFrom valM testM patience r (e + 1) n)

/-- A full run: the epoch loop started from the reset record
best_val = 0, best_test = 0, best_epoch = 0 at epoch 0. -/
def runFull (valM testM : Nat → ℚ) (patience numEpochs : Nat) : RunResult :=
  runFrom valM testM patience ⟨0, 0, 0⟩ 0 numEpochs

/-- Best validation metric seen before epoch e in a run, starting from the
reset value 0 of the run record. -/
def priorBest (valM : Nat → ℚ) (e : Nat) : ℚ :=
  (List.range e).foldl (fun b i => max b (valM i)) 0

lemma priorBest_succ (valM : Nat → ℚ) (e : Nat) :
    priorBest valM (e + 1) = max (priorBest valM e) (valM e) := by
  unfold priorBest
  rw [List.range_succ, List.foldl_append]
  rfl

lemma runFrom_testRan_iff (valM testM : Nat → ℚ) (patience : Nat) :
    ∀ (n e : Nat) (r : RunRecord), r.bestVal = priorBest valM e →
      ∀ o ∈ (runFrom valM testM patience r e n).trace,
        (o.testRan = true ↔ priorBest valM o.epoch < valM o.epoch) := by
  intro n
  induction n with
  | zero =>
    intro e r _ o ho
    simp [runFrom] at ho
  | succ n ih =>
    intro e r hr o ho
    by_cases h : r.bestVal < valM e
    · rw [hr] at h
      by_cases hp : patience ≤ e - r.bestEpoch ∧ 1 < e
      · simp only [runFrom, if_pos (hr ▸ h), if_pos hp, List.mem_singleton] at ho
        subst ho
        simpa using h
      · simp only [runFrom, if_pos (hr ▸ h), if_neg hp, consOutcome,
          List.mem_cons] at ho
        rcases ho with ho | ho
        · subst ho
          simpa using h
        · exact ih (e + 1) ⟨valM e, testM e, e⟩
            (by simp [priorBest_succ, max_eq_right (le_of_lt h)]) o ho
    · simp only [runFrom, if_neg h, consOutcome, List.mem_cons] at ho
      rw [hr] at h
      rcases ho with ho | ho
      · subst ho
        simpa using h
      · exact ih (e + 1) r
          (by rw [hr, priorBest_succ, max_eq_left (not_lt.mp h)]) o ho

/-- C3: the patience check only acts in epochs reached through a strict
validation improvement: without improvement the epoch continues with the
record unchanged; with improvement and (epoch - best_epoch) >= patience and
epoch > 1 the run terminates immediately (its trace ends at this epoch and
the stop flag is set); with improvement otherwise, best_epoch is set to the
current epoch and the run continues with the next epoch. -/
theorem c3_patience_check (valM testM : Nat → ℚ) (patience : Nat)
    (r : RunRecord) (e n : Nat) :
    (valM e ≤ r.bestVal →
      runFrom valM testM patience r e (n + 1) =
        consOutcome ⟨e, false, r⟩ (runFrom valM testM patience r (e + 1) n)) ∧
    (r.bestVal < valM e → patience ≤ e - r.bestEpoch → 1 < e →
      runFrom valM testM patience r e (n + 1) =
        ⟨⟨valM e, testM e, e⟩, [⟨e, true, ⟨valM e, testM e, e⟩⟩], true⟩) ∧
    (r.bestVal < valM e → ¬(patience ≤ e - r.bestEpoch ∧ 1 < e) →
      runFrom valM testM patience r e (n + 1) =
        consOutcome ⟨e, true, ⟨valM e, testM e, e⟩⟩
          (runFrom valM testM patience ⟨valM e, testM e, e⟩ (e + 1) n)) := by
  refine ⟨fun h => ?_, fun h hp he => ?_, fun h hp => ?_⟩
  · simp [runFrom, if_neg (not_lt.mpr h)]
  · simp [runFrom, if_pos h, if_pos (And.intro hp he)]
  · simp [runFrom, if_pos h, if_neg hp]

/-- Concrete instance of c3_patience_check: an improvement at epoch 2 with
best_epoch still 0 and patience 1 terminates the run immediately. -/
theorem c3_patience_check_witness :
    runFrom (fun _ => (1 : ℚ)) (fun _ => (5 : ℚ)) 1 ⟨0, 0, 0⟩ 2 (3 + 1) =
      ⟨⟨1, 5, 2⟩, [⟨2, true, ⟨1, 5, 2⟩⟩], true⟩ :=
  (c3_patience_check (fun _ => (1 : ℚ)) (fun _ => (5 : ℚ)) 1 ⟨0, 0, 0⟩ 2 3).2.1
    (by norm_num) (by norm_num) (by norm_num)

/-- Validation metrics for the c4 counterexample run: no improvement at
epochs 0 and 1, first improvement at epoch 2. -/
def c4ValSeq : Nat → ℚ := fun e => if e = 2 then 1 else 0

/-- C4 counterexample: with patience 2 and 5 allotted epochs, a run whose
first validation improvement happens at epoch 2 takes the early-stop break
there: at the patience check, epoch - best_epoch = 2 - 0 reaches the
patience, so the run stops after 3 of the 5 epochs, refuting the claim that
the break is never taken under unit epoch increments. -/
theorem c4_counterexample :
    (runFull c4ValSeq (fun _ => 0) 2 5).stoppedEarly = true ∧
    (runFull c4ValSeq (fun _ => 0) 2 5).trace.length = 3 ∧ (3 : Nat) < 5 := by
  decide

lemma runFrom_no_stop (valM testM : Nat → ℚ) (patience : Nat)
    (himp : ∀ e, priorBest valM e < valM e) (hpat : 2 ≤ patience) :
    ∀ (n e : Nat) (r : RunRecord),
      r.bestVal = priorBest valM e → e ≤ r.bestEpoch + 1 →
      (runFrom valM testM patience r e n).stoppedEarly = false ∧
      (runFrom valM testM patience r e n).trace.length = n := by
  intro n
  induction n with
  | zero =>
    intro e r _ _
    simp [runFrom]
  | succ n ih =>
    intro e r hr he
    have h : r.bestVal < valM e := by rw [hr]; exact himp e
    have hd : e - r.bestEpoch ≤ 1 := by omega
    have hp : ¬(patience ≤ e - r.bestEpoch ∧ 1 < e) := by
      rintro ⟨hp1, _⟩
      omega
    have hrec := ih (e + 1) ⟨valM e, testM e, e⟩
      (by simp [priorBest_succ, max_eq_right (le_of_lt (himp e))]) (le_refl _)
    simp only [runFrom, if_pos h, if_neg hp, consOutcome]
    simpa using hrec

/-- C4 amended: the early-stop break is never taken, and the run executes all
allotted epochs, provided every improvement epoch passes the patience check;
in particular this holds whenever the validation metric strictly improves at
every epoch and patience is at least 2, since then epoch - best_epoch never
exceeds 1.  In general the break is reachable (see c4_counterexample). -/
theorem c4_amended_steady_improvement (valM testM : Nat → ℚ)
    (patience numEpochs : Nat)
    (himp : ∀ e, priorBest valM e < valM e) (hpat : 2 ≤ patience) :
    (runFull valM testM patience numEpochs).stoppedEarly = false ∧
    (runFull valM testM patience numEpochs).trace.length = numEpochs :=
  runFrom_no_stop valM testM patience himp hpat numEpochs 0 ⟨0, 0, 0⟩ rfl
    (by omega)

/-- Strictly increasing validation metrics used by the c4 amended witness. -/
def c4SteadyVal : Nat → ℚ := fun e => (e : ℚ) + 1

lemma c4SteadyVal_prior : ∀ e, priorBest c4SteadyVal e = (e : ℚ) := by
  intro e
  induction e with
  | zero => rfl
  | succ k ih =>
    rw [priorBest_succ, ih]
    have : (k : ℚ) ≤ c4SteadyVal k := by
      simp only [c4SteadyVal]
      linarith
    rw [max_eq_right this]
    simp only [c4SteadyVal]
    push_cast
    ring

/-- Concrete instance of c4_amended_steady_improvement: a 3-epoch run with
strictly increasing validation metrics and patience 2 never stops early. -/
theorem c4_amended_steady_improvement_witness :
    (runFull c4SteadyVal (fun _ => 0) 2 3).stoppedEarly = false ∧
    (runFull c4SteadyVal (fun _ => 0) 2 3).trace.length = 3 :=
  c4_amended_steady_improvement c4SteadyVal (fun _ => 0) 2 3
    (fun e => by rw [c4SteadyVal_prior]; simp only [c4SteadyVal]; linarith)
    (by norm_num)

/-- Relation between the run records of consecutive epochs: best_val never
decreases, and when it changes it takes the value of the later epoch's
validation metric. -/
def bestValStep (valM : Nat → ℚ) (a b : EpochOutcome) : Prop :=
  a.recAfter.bestVal ≤ b.recAfter.bestVal ∧
    (a.recAfter.bestVal ≠ b.recAfter.bestVal →
      b.recAfter.bestVal = valM b.epoch)

lemma runFrom_chain (valM testM : Nat → ℚ) (patience : Nat) :
    ∀ (n e : Nat) (r : RunRecord),
      (∀ o ∈ (runFrom valM testM patience r e n).trace.head?,
        r.bestVal ≤ o.recAfter.bestVal ∧
          (r.bestVal ≠ o.recAfter.bestVal →
            o.recAfter.bestVal = valM o.epoch)) ∧
      List.Chain' (bestValStep valM) (runFrom valM testM patience r e n).trace := by
  intro n
  induction n with
  | zero =>
    intro e r
    simp [runFrom]
  | succ n ih =>
    intro e r
    by_cases h : r.bestVal < valM e
    · by_cases hp : patience ≤ e - r.bestEpoch ∧ 1 < e
      · simp only [runFrom, if_pos h, if_pos hp]
        constructor
        · intro o ho
          simp only [List.head?_cons, Option.mem_def, Option.some.injEq] at ho
          subst ho
          exact ⟨le_of_lt h, fun _ => rfl⟩
        · simp [List.chain'_singleton]
      · simp only [runFrom, if_pos h, if_neg hp, consOutcome]
        have hrec := ih (e + 1) ⟨valM e, testM e, e⟩
        constructor
        · intro o ho
          simp only [List.head?_cons, Option.mem_def, Option.some.injEq] at ho
          subst ho
          exact ⟨le_of_lt h, fun _ => rfl⟩
        · rw [List.chain'_cons']
          constructor
          · intro o₂ ho₂
            have h2 := hrec.1 o₂ ho₂
            exact ⟨h2.1, h2.2⟩
          · exact hrec.2
    · simp only [runFrom, if_neg h, consOutcome]
      have hrec := ih (e + 1) r
      constructor
      · intro o ho
        simp only [List.head?_cons, Option.mem_def, Option.some.injEq] at ho
        subst ho
        exact ⟨le_refl _, fun hne => absurd rfl hne⟩
      · rw [List.chain'_cons']
        constructor
        · intro o₂ ho₂
          have h2 := hrec.1 o₂ ho₂
          exact ⟨h2.1, h2.2⟩
        · exact hrec.2

/-- C7: within one run best_val is non-decreasing across epochs: starting
from the reset value 0 it is at most the first epoch's best_val, and along
consecutive epochs it never decreases, changing only to the newer epoch's
validation metric (a strictly larger value, by c2/c3 only improvements
update it). -/
theorem c7_bestVal_monotone (valM testM : Nat → ℚ) (patience numEpochs : Nat) :
    (∀ o ∈ (runFull valM testM patience numEpochs).trace.head?,
      (0 : ℚ) ≤ o.recAfter.bestVal) ∧
    List.Chain' (bestValStep valM) (runFull valM testM patience numEpochs).trace :=
  ⟨fun o ho => ((runFrom_chain valM testM patience numEpochs 0 ⟨0, 0, 0⟩).1 o ho).1,
    (runFrom_chain valM testM patience numEpochs 0 ⟨0, 0, 0⟩).2⟩

/-- Concrete instance of c7_bestVal_monotone on a one-epoch run. -/
theorem c7_bestVal_monotone_witness :
    (0 : ℚ) ≤ (⟨0, true, ⟨1, 7, 0⟩⟩ : EpochOutcome).recAfter.bestVal :=
  (c7_bestVal_monotone (fun _ => (1 : ℚ)) (fun _ => (7 : ℚ)) 100 1).1
    ⟨0, true, ⟨1, 7, 0⟩⟩ (by decide)

/-! ## EvolveGCN-O training epoch
Embeds the snapshot loop of one training epoch of src/dtdg_egcno_original.py
(lines 113-156).  The encoder (RecurrentGCN with its internal weight
evolution), the decoder-plus-criterion terms and the raw randomness of
torch.randint are abstract parameters; node features are absorbed into the
encoder.  μ is the encoder's internal state, Emb the embedding type. -/

namespace Egcno

/-- Inputs of the EvolveGCN-O training epoch: the external collaborators and
the training split data.  critPos stands for criterion(link_pred(h[pos 0],
h[pos 1]), ones); critNeg for criterion(link_pred(h[pos 0], h[neg_dst]),
zeros), given the sources pos 0 and the sampled destinations. -/
structure Ctx (μ Emb : Type) where
  enc : μ → Edges → List ℚ → μ × Emb
  critPos : Emb → Edges → ℚ
  critNeg : Emb → List Nat → List Nat → ℚ
  draw : Nat → Nat → Nat
  snaps : Nat → Edges
  timeLength : Nat
  hasEdgeAttr : Bool
  dataNumNodes : Nat

/-- num_nodes of the script: the dataset node count plus one
(dtdg_egcno_original.py line 85). -/
def numNodes {μ Emb : Type} (c : Ctx μ Emb) : Nat := c.dataNumNodes + 1

/-- Feed edges of snapshot t: the first snapshot feeds itself, every later
snapshot feeds the previous snapshot's edges (lines 121-137). -/
def feedOf {μ Emb : Type} (c : Ctx μ Emb) (t : Nat) : Edges :=
  if t = 0 then c.snaps 0 else c.snaps (t - 1)

/-- Per-snapshot observables of the training loop: the edges fed to the
encoder, the weights used, the embedding produced, the positive edges scored
with it, the sampled negative destinations, and the two criterion terms. -/
structure SnapRecord (Emb : Type) where
  feed : Edges
  attr : List ℚ
  emb : Emb
  pos : Edges
  negDst : List Nat
  lossPos : ℚ
  lossNeg : ℚ
deriving DecidableEq

/-- Body of one iteration of the training snapshot loop (lines 121-153):
advance the encoder on the feed edges behind the edge-attribute guard, take
snapshot t's edges as positives, draw one uniform destination in
[0, num_nodes) per positive edge, and form the two criterion terms. -/
def stepBody {μ Emb : Type} (c : Ctx μ Emb) (m : μ) (t : Nat) :
    Except String (μ × SnapRecord Emb) :=
  match advanceState c.enc c.hasEdgeAttr m (feedOf c t) with
  | Except.error s => Except.error s
  | Except.ok out =>
    Except.ok (out.1,
      ⟨feedOf c t, out.2.2, out.2.1, c.snaps t,
        (List.range (c.snaps t).length).map
          (fun i => randint 0 (numNodes c) (c.draw t i)),
        c.critPos out.2.1 (c.snaps t),
        c.critNeg out.2.1 ((c.snaps t).map Prod.fst)
          ((List.range (c.snaps t).length).map
            (fun i => randint 0 (numNodes c) (c.draw t i)))⟩)

/-- The training snapshot loop (lines 119-153): iterate stepBody over the
snapshot indices, accumulating the trace, the total loss and the events. -/
def loopSnaps {μ Emb : Type} (c : Ctx μ Emb) :
    List Nat → μ → List (SnapRecord Emb) → ℚ → List Ev →
    Except String (μ × List (SnapRecord Emb) × ℚ × List Ev)
  | [], m, recs, tl, evs => Except.ok (m, recs, tl, evs)
  | t :: ts, m, recs, tl, evs =>
    match stepBody c m t with
    | Except.error s => Except.error s
    | Except.ok mr =>
      loopSnaps c ts mr.1 (recs ++ [mr.2])
        (tl + mr.2.lossPos + mr.2.lossNeg)
        (evs ++ [Ev.advanceEv mr.2.feed, Ev.lossAdd mr.2.lossPos,
          Ev.lossAdd mr.2.lossNeg])

/-- Result of one training epoch: final encoder state, per-snapshot trace,
accumulated total loss and the epoch's event list. -/
structure EpochResult (μ Emb : Type) where
  encState : μ
  trace : List (SnapRecord Emb)
  totalLoss : ℚ
  events : List Ev
deriving DecidableEq

/-- One training epoch (lines 113-156): optimizer.zero_grad, the snapshot
loop over range(time_length) accumulating total_loss, then
total_loss.backward() and a single optimizer.step(). -/
def trainEpoch {μ Emb : Type} (c : Ctx μ Emb) (m0 : μ) :
    Except String (EpochResult μ Emb) :=
  match loopSnaps c (List.range c.timeLength) m0 [] 0 [Ev.zeroGrad] with
  | Except.error s => Except.error s
  | Except.ok out =>
    Except.ok ⟨out.1, out.2.1, out.2.2.1,
      out.2.2.2 ++ [Ev.backward out.2.2.1, Ev.optStep]⟩

/-- Encoder state before processing snapshot t, in the edge-attribute-free
run: the initial state advanced on the feed edges of snapshots 0..t-1 with
unit weights. -/
def encStateAt {μ Emb : Type} (c : Ctx μ Emb) (m0 : μ) : Nat → μ
  | 0 => m0
  | t + 1 =>
    (c.enc (encStateAt c m0 t) (feedOf c t)
      (List.replicate (feedOf c t).length 1)).1

/-- Embedding produced at snapshot t: the encoder output on the feed edges
of snapshot t. -/
def embAt {μ Emb : Type} (c : Ctx μ Emb) (m0 : μ) (t : Nat) : Emb :=
  (c.enc (encStateAt c m0 t) (feedOf c t)
    (List.replicate (feedOf c t).length 1)).2

/-- Negative destinations drawn at snapshot t: one draw from
[0, num_nodes) per positive edge of snapshot t. -/
def negDstAt {μ Emb : Type} (c : Ctx μ Emb) (t : Nat) : List Nat :=
  (List.range (c.snaps t).length).map
    (fun i => randint 0 (numNodes c) (c.draw t i))

/-- Closed form of the trace entry of snapshot t. -/
def recordAt {μ Emb : Type} (c : Ctx μ Emb) (m0 : μ) (t : Nat) :
    SnapRecord Emb :=
  ⟨feedOf c t, List.replicate (feedOf c t).length 1, embAt c m0 t, c.snaps t,
    negDstAt c t, c.critPos (embAt c m0 t) (c.snaps t),
    c.critNeg (embAt c m0 t) ((c.snaps t).map Prod.fst) (negDstAt c t)⟩

/-- Loss contribution of snapshot t. -/
def lossAt {μ Emb : Type} (c : Ctx μ Emb) (m0 : μ) (t : Nat) : ℚ :=
  (recordAt c m0 t).lossPos + (recordAt c m0 t).lossNeg

/-- Events emitted by iteration t of the snapshot loop. -/
def evAt {μ Emb : Type} (c : Ctx μ Emb) (m0 : μ) (t : Nat) : List Ev :=
  [Ev.advanceEv (feedOf c t), Ev.lossAdd (recordAt c m0 t).lossPos,
    Ev.lossAdd (recordAt c m0 t).lossNeg]

lemma stepBody_ok {μ Emb : Type} (c : Ctx μ Emb)
    (hattr : c.hasEdgeAttr = false) (m0 : μ) (t : Nat) :
    stepBody c (encStateAt c m0 t) t =
      Except.ok (encStateAt c m0 (t + 1), recordAt c m0 t) := by
  simp [stepBody, advanceState, edgeAttrOr, hattr, recordAt, embAt, negDstAt,
    encStateAt]

lemma loopSnaps_range' {μ Emb : Type} (c : Ctx μ Emb)
    (hattr : c.hasEdgeAttr = false) (m0 : μ) :
    ∀ (b a : Nat) (recs : List (SnapRecord Emb)) (tl : ℚ) (evs : List Ev),
      loopSnaps c (List.range' a b) (encStateAt c m0 a) recs tl evs =
        Except.ok (encStateAt c m0 (a + b),
          recs ++ (List.range' a b).map (recordAt c m0),
          tl + ((List.range' a b).map (lossAt c m0)).sum,
          evs ++ (List.range' a b).flatMap (evAt c m0)) := by
  intro b
  induction b with
  | zero =>
    intro a recs tl evs
    simp [loopSnaps]
  | succ b ih =>
    intro a recs tl evs
    rw [List.range'_succ]
    simp only [loopSnaps, stepBody_ok c hattr m0 a]
    rw [ih (a + 1)]
    have harith : a + 1 + b = a + (b + 1) := by omega
    rw [harith]
    simp [List.append_assoc, lossAt, evAt, add_assoc]
    rfl

lemma trainEpoch_ok {μ Emb : Type} (c : Ctx μ Emb)
    (hattr : c.hasEdgeAttr = false) (m0 : μ) :
    trainEpoch c m0 = Except.ok
      ⟨encStateAt c m0 c.timeLength,
        (List.range c.timeLength).map (recordAt c m0),
        ((List.range c.timeLength).map (lossAt c m0)).sum,
        Ev.zeroGrad :: ((List.range c.timeLength).flatMap (evAt c m0) ++
          [Ev.backward ((List.range c.timeLength).map (lossAt c m0)).sum,
            Ev.optStep])⟩ := by
  have h := loopSnaps_range' c hattr m0 c.timeLength 0 [] 0 [Ev.zeroGrad]
  simp only [show encStateAt c m0 0 = m0 from rfl, Nat.zero_add, zero_add,
    List.nil_append] at h
  unfold trainEpoch
  rw [List.range_eq_range', h]
  simp

end Egcno

/-! ## GC-LSTM training epoch
Embeds the snapshot loop of one training epoch of src/dtdg_gclstm.py
(lines 63-103).  σ is the recurrent state (the h, c pair threaded through
model calls); the encoder forward pass, the decoder-plus-criterion terms and
torch_geometric's negative_sampling are abstract parameters. -/

namespace Gclstm

/-- Inputs of the GC-LSTM training epoch.  critP stands for
criterion(link_pred(h[edge_index 0], h[edge_index 1]), ones) on the given
edges with the given state; critN for the zeros-target term on the sampled
negative edges; negSamp for negative_sampling(pos_index, num_nodes,
num_neg_samples). -/
structure CtxL (σ : Type) where
  encL : σ → Edges → List ℚ → σ
  critP : σ → Edges → ℚ
  critN : σ → Edges → ℚ
  negSamp : Edges → Nat → Nat → Edges
  snaps : Nat → Edges
  timeLength : Nat
  hasEdgeAttr : Bool
  dataNumNodes : Nat
  s0 : σ

/-- num_nodes of the script: the dataset node count plus one
(dtdg_gclstm.py line 51). -/
def numNodesL {σ : Type} (c : CtxL σ) : Nat := c.dataNumNodes + 1

/-- Feed edges of iteration t: the first iteration feeds the current
snapshot, every later iteration feeds the previous snapshot's edges
(lines 74-90); this edge_index is also the edge set the script scores as
positives at iteration t (line 92). -/
def feedL {σ : Type} (c : CtxL σ) (t : Nat) : Edges :=
  if t = 0 then c.snaps 0 else c.snaps (t - 1)

/-- Per-iteration observables of the GC-LSTM training loop: the current
snapshot's positives pos_index, the sampled negative edges, the edge_index
that was fed to the encoder and then scored as positives, the weights used,
the state after the model call, the value of loss folded into total_loss at
this iteration, and the two criterion terms. -/
structure SnapRecordL (σ : Type) where
  pos : Edges
  negEdges : Edges
  feed : Edges
  attr : List ℚ
  state : σ
  lossBefore : ℚ
  lossP : ℚ
  lossN : ℚ
deriving DecidableEq

/-- Body of one iteration of the training loop (lines 70-97): take
pos_index, sample negatives from it, advance the state on edge_index behind
the edge-attribute guard, then score edge_index as positives and the sampled
edges as negatives, add the running loss into total_loss (before the new
criterion terms), and add the criterion terms to loss. -/
def stepBodyL {σ : Type} (c : CtxL σ) (s : σ) (loss : ℚ) (t : Nat) :
    Except String (σ × ℚ × SnapRecordL σ) :=
  match edgeAttrOr c.hasEdgeAttr (feedL c t).length with
  | Except.error e => Except.error e
  | Except.ok attr =>
    Except.ok (c.encL s (feedL c t) attr,
      loss + c.critP (c.encL s (feedL c t) attr) (feedL c t) +
        c.critN (c.encL s (feedL c t) attr)
          (c.negSamp (c.snaps t) (numNodesL c) (c.snaps t).length),
      ⟨c.snaps t, c.negSamp (c.snaps t) (numNodesL c) (c.snaps t).length,
        feedL c t, attr, c.encL s (feedL c t) attr, loss,
        c.critP (c.encL s (feedL c t) attr) (feedL c t),
        c.critN (c.encL s (feedL c t) attr)
          (c.negSamp (c.snaps t) (numNodesL c) (c.snaps t).length)⟩)

/-- The training snapshot loop (lines 69-97): iterate stepBodyL, threading
(state, loss, total_loss); total_loss grows by the pre-update loss times the
feed-edge count (line 95). -/
def loopSnapsL {σ : Type} (c : CtxL σ) :
    List Nat → σ → ℚ → ℚ → List (SnapRecordL σ) → List Ev →
    Except String (σ × ℚ × ℚ × List (SnapRecordL σ) × List Ev)
  | [], s, loss, tl, recs, evs => Except.ok (s, loss, tl, recs, evs)
  | t :: ts, s, loss, tl, recs, evs =>
    match stepBodyL c s loss t with
    | Except.error e => Except.error e
    | Except.ok out =>
      loopSnapsL c ts out.1 out.2.1
        (tl + loss * ((feedL c t).length : ℚ))
        (recs ++ [out.2.2])
        (evs ++ [Ev.advanceEv out.2.2.feed, Ev.lossAdd out.2.2.lossP,
          Ev.lossAdd out.2.2.lossN])

/-- Result of one GC-LSTM training epoch: final state, the differentiable
loss that is optimized, the total_loss reporting accumulator, the reported
value total_loss / num_nodes (line 103), the trace and the events. -/
structure EpochResultL (σ : Type) where
  state : σ
  loss : ℚ
  totalLoss : ℚ
  reported : ℚ
  trace : List (SnapRecordL σ)
  events : List Ev
deriving DecidableEq

/-- One training epoch (lines 63-103): the snapshot loop from (None, None)
state and zero loss accumulators, then loss.backward(), optimizer.step(),
optimizer.zero_grad() and the report of total_loss / num_nodes. -/
def trainEpochL {σ : Type} (c : CtxL σ) : Except String (EpochResultL σ) :=
  match loopSnapsL c (List.range c.timeLength) c.s0 0 0 [] [] with
  | Except.error e => Except.error e
  | Except.ok out =>
    Except.ok ⟨out.1, out.2.1, out.2.2.1, out.2.2.1 / ((numNodesL c : ℚ)),
      out.2.2.2.1,
      out.2.2.2.2 ++ [Ev.backward out.2.1, Ev.optStep, Ev.zeroGrad]⟩

/-- Recurrent state before iteration t in the edge-attribute-free run. -/
def stateAtL {σ : Type} (c : CtxL σ) : Nat → σ
  | 0 => c.s0
  | t + 1 =>
    c.encL (stateAtL c t) (feedL c t) (List.replicate (feedL c t).length 1)

/-- Criterion contribution of iteration t to the differentiable loss. -/
def lossTermL {σ : Type} (c : CtxL σ) (t : Nat) : ℚ :=
  c.critP (stateAtL c (t + 1)) (feedL c t) +
    c.critN (stateAtL c (t + 1))
      (c.negSamp (c.snaps t) (numNodesL c) (c.snaps t).length)

/-- Differentiable loss accumulated through the first t iterations. -/
def lossUpTo {σ : Type} (c : CtxL σ) (t : Nat) : ℚ :=
  ((List.range t).map (lossTermL c)).sum

/-- Closed form of the trace entry of iteration t. -/
def recordAtL {σ : Type} (c : CtxL σ) (t : Nat) : SnapRecordL σ :=
  ⟨c.snaps t, c.negSamp (c.snaps t) (numNodesL c) (c.snaps t).length,
    feedL c t, List.replicate (feedL c t).length 1, stateAtL c (t + 1),
    lossUpTo c t,
    c.critP (stateAtL c (t + 1)) (feedL c t),
    c.critN (stateAtL c (t + 1))
      (c.negSamp (c.snaps t) (numNodesL c) (c.snaps t).length)⟩

/-- Events emitted by iteration t of the GC-LSTM loop. -/
def evAtL {σ : Type} (c : CtxL σ) (t : Nat) : List Ev :=
  [Ev.advanceEv (feedL c t), Ev.lossAdd (recordAtL c t).lossP,
    Ev.lossAdd (recordAtL c t).lossN]

lemma lossUpTo_succ {σ : Type} (c : CtxL σ) (t : Nat) :
    lossUpTo c (t + 1) = lossUpTo c t + lossTermL c t := by
  simp [lossUpTo, List.range_succ]

lemma stepBodyL_ok {σ : Type} (c : CtxL σ) (hattr : c.hasEdgeAttr = false)
    (t : Nat) :
    stepBodyL c (stateAtL c t) (lossUpTo c t) t =
      Except.ok (stateAtL c (t + 1), lossUpTo c (t + 1), recordAtL c t) := by
  simp [stepBodyL, edgeAttrOr, hattr, recordAtL, lossUpTo_succ, lossTermL,
    stateAtL, add_assoc]

lemma loopSnapsL_range' {σ : Type} (c : CtxL σ)
    (hattr : c.hasEdgeAttr = false) :
    ∀ (b a : Nat) (tl : ℚ) (recs : List (SnapRecordL σ)) (evs : List Ev),
      loopSnapsL c (List.range' a b) (stateAtL c a) (lossUpTo c a) tl recs evs =
        Except.ok (stateAtL c (a + b), lossUpTo c (a + b),
          tl + ((List.range' a b).map
            (fun t => lossUpTo c t * ((feedL c t).length : ℚ))).sum,
          recs ++ (List.range' a b).map (recordAtL c),
          evs ++ (List.range' a b).flatMap (evAtL c)) := by
  intro b
  induction b with
  | zero =>
    intro a tl recs evs
    simp [loopSnapsL]
  | succ b ih =>
    intro a tl recs evs
    rw [List.range'_succ]
    simp only [loopSnapsL, stepBodyL_ok c hattr a]
    rw [ih (a + 1)]
    have harith : a + 1 + b = a + (b + 1) := by omega
    rw [harith]
    simp [List.append_assoc, add_assoc, evAtL]
    rfl

/-- Per-epoch evaluation outcome of dtdg_gclstm.py: the epoch, its
validation metric, and whether a test-split evaluation executed in it. -/
structure EvalOutcomeL where
  epoch : Nat
  valMetric : ℚ
  testRan : Bool
deriving DecidableEq

/-- The per-epoch evaluation section of dtdg_gclstm.py (lines 105-166) over
a whole run: after each training epoch the script evaluates the validation
split and prints the metric (line 166); the section contains no test-split
evaluation path and keeps no best tracking, so no epoch ever runs one. -/
def runEpochsL (valM : Nat → ℚ) (numEpochs : Nat) : List EvalOutcomeL :=
  (List.range numEpochs).map (fun e => ⟨e, valM e, false⟩)

lemma trainEpochL_ok {σ : Type} (c : CtxL σ) (hattr : c.hasEdgeAttr = false) :
    trainEpochL c = Except.ok
      ⟨stateAtL c c.timeLength, lossUpTo c c.timeLength,
        ((List.range c.timeLength).map
          (fun t => lossUpTo c t * ((feedL c t).length : ℚ))).sum,
        ((List.range c.timeLength).map
          (fun t => lossUpTo c t * ((feedL c t).length : ℚ))).sum /
          ((numNodesL c : ℚ)),
        (List.range c.timeLength).map (recordAtL c),
        (List.range c.timeLength).flatMap (evAtL c) ++
          [Ev.backward (lossUpTo c c.timeLength), Ev.optStep,
            Ev.zeroGrad]⟩ := by
  have h := loopSnapsL_range' c hattr c.timeLength 0 0 [] []
  simp only [show stateAtL c 0 = c.s0 from rfl,
    show lossUpTo c 0 = 0 from rfl, Nat.zero_add, zero_add,
    List.nil_append] at h
  unfold trainEpochL
  rw [List.range_eq_range', h]

end Gclstm

/-! ## Gradient-history tracking of the evaluation state
Models only the autograd status of the embedding (and cell) state carried
through the evaluation loops: a tensor either carries gradient history or
not.  A forward pass of the encoder is run outside any no-grad context and
its parameters require grad, so its output always carries history;
Tensor.detach severs it. -/

namespace Grad

/-- Autograd status of a tensor: whether it carries gradient history. -/
structure GTensor where
  tracked : Bool
deriving DecidableEq

/-- Tensor.detach(): the result carries no gradient history. -/
def detach (_t : GTensor) : GTensor := ⟨false⟩

/-- Output of a forward pass of the encoder outside any no-grad context:
the module parameters require grad, so the output carries gradient history
no matter the inputs. -/
def forwardOut : GTensor := ⟨true⟩

def egcnoValAux (h : GTensor) : Nat → List GTensor
  | 0 => []
  | n + 1 => h :: egcnoValAux (detach forwardOut) n

/-- Autograd status of the embedding used to score each of n validation
snapshots in dtdg_egcno_original.py: h = h.detach() before the loop
(line 178), then after scoring each snapshot
h = model(node_feat, prev_index, edge_attr).detach() (line 216). -/
def egcnoValStates (h : GTensor) (n : Nat) : List GTensor :=
  egcnoValAux (detach h) n

def egcnoTestAux (h : GTensor) : Nat → List GTensor
  | 0 => []
  | n + 1 => h :: egcnoTestAux forwardOut n

/-- Autograd status of the embedding used to score each of n test snapshots
in dtdg_egcno_original.py: h = h.detach() before the loop (line 246), then
after scoring each snapshot h = model(node_feat, prev_index, edge_attr)
with no detach (line 286). -/
def egcnoTestStates (h : GTensor) (n : Nat) : List GTensor :=
  egcnoTestAux (detach h) n

def gclstmValAux (hc : GTensor × GTensor) : Nat → List (GTensor × GTensor)
  | 0 => []
  | n + 1 => hc :: gclstmValAux (forwardOut, forwardOut) n

/-- Autograd status of the (h, c) state used to score each of n validation
snapshots in dtdg_gclstm.py: h = h.detach() and c = c.detach() before the
loop (lines 122-123); each snapshot after the first advances
h, c = model(node_feat, prev_index, edge_attr, h, c) with no detach
(line 138) before scoring. -/
def gclstmValStates (h c : GTensor) (n : Nat) : List (GTensor × GTensor) :=
  gclstmValAux (detach h, detach c) n

end Grad

/-! ## Claims C1, C5, C6, C8, C9, C10 -/

lemma lrange_one : List.range 1 = [0] := by decide

lemma lrange_two : List.range 2 = [0, 1] := by decide

lemma lreplicate_one : List.replicate 1 (1 : ℚ) = [1] := rfl

lemma lreplicate_two : List.replicate 2 (1 : ℚ) = [1, 1] := rfl

/-- Inputs of the failing GC-LSTM run for C1: three pairwise distinct
snapshots, the recurrent state instantiated as the list of edge sets the
encoder has been advanced on. -/
def c1Ctx : Gclstm.CtxL (List Edges) :=
  ⟨fun s e _ => s ++ [e], fun _ _ => 0, fun _ _ => 0, fun _ _ _ => [],
    fun t => [(t, t + 1)], 3, false, 9, []⟩

/-- Training trace of the failing GC-LSTM run for C1. -/
def c1Trace : List (Gclstm.SnapRecordL (List Edges)) :=
  match Gclstm.trainEpochL c1Ctx with
  | Except.ok res => res.trace
  | Except.error _ => []

/-- C1 fails on dtdg_gclstm.py: at training iteration 2 the script scores
edge_index — snapshot 1's edges — as the positives (field feed, used in
pos_out at line 92), not snapshot 2's own positives (field pos), and the
state used for that scoring was just advanced on exactly those same edges
(last entry of the state history is snapshot 1's edge set).  So snapshot
1's edges are scored with an embedding produced from snapshot 1's own
edges, and snapshot t's positives are not the edges scored at iteration t.
In dtdg_egcno_original.py the claim holds (pos_out scores pos_index with
the embedding advanced on the feed edges, compare Egcno.recordAt). -/
theorem c1_gclstm_scores_feed_edges :
    (c1Trace.get? 2).map (fun r => (r.pos, r.feed, r.state)) =
      some ([(2, 3)], [(1, 2)], [[(0, 1)], [(0, 1)], [(1, 2)]]) ∧
    c1Ctx.snaps 1 = [(1, 2)] ∧ c1Ctx.snaps 2 = [(2, 3)] := by
  decide

/-- C2 counterexample: the claim also covers dtdg_gclstm.py (its sources
cite the evaluation section, lines 105-166), which contains no test-split
evaluation path.  In a one-epoch GC-LSTM run with validation metric 1,
epoch 0 strictly exceeds the best validation metric seen so far (0), yet
its outcome shows no test-split evaluation executed — one strict-improvement
epoch, zero test evaluations — refuting the claimed iff and count equality
at that program. -/
theorem c2_counterexample_gclstm :
    priorBest (fun _ => (1 : ℚ)) 0 < (1 : ℚ) ∧
    Gclstm.runEpochsL (fun _ => (1 : ℚ)) 1 = [⟨0, 1, false⟩] := by
  decide

/-- C2 amended: in the EvolveGCN-O run loop, the test-split evaluation runs
in an executed epoch if and only if that epoch's validation metric strictly
exceeds the best validation metric seen so far in the run (the running
maximum of the prior metrics, starting from the reset value 0 of the run
record); in the GC-LSTM script the per-epoch evaluation section has no
test-split path, so no epoch ever executes a test-split evaluation,
whatever the improvements. -/
theorem c2_amended_test_iff_improvement :
    (∀ (valM testM : Nat → ℚ) (patience numEpochs : Nat) (o : EpochOutcome),
      o ∈ (runFull valM testM patience numEpochs).trace →
      (o.testRan = true ↔ priorBest valM o.epoch < valM o.epoch)) ∧
    (∀ (valM : Nat → ℚ) (numEpochs : Nat) (o : Gclstm.EvalOutcomeL),
      o ∈ Gclstm.runEpochsL valM numEpochs → o.testRan = false) := by
  constructor
  · intro valM testM patience numEpochs o ho
    exact runFrom_testRan_iff valM testM patience numEpochs 0 ⟨0, 0, 0⟩ rfl o ho
  · intro valM numEpochs o ho
    obtain ⟨e, hmem, rfl⟩ := List.mem_map.mp ho
    rfl

/-- Concrete instance of c2_amended_test_iff_improvement on one-epoch runs
of both scripts. -/
theorem c2_amended_test_iff_improvement_witness :
    ((⟨0, true, ⟨1, 7, 0⟩⟩ : EpochOutcome).testRan = true ↔
      priorBest (fun _ => (1 : ℚ)) 0 < (fun _ => (1 : ℚ)) 0) ∧
    (⟨0, 1, false⟩ : Gclstm.EvalOutcomeL).testRan = false :=
  ⟨c2_amended_test_iff_improvement.1 (fun _ => (1 : ℚ)) (fun _ => (7 : ℚ))
      100 1 ⟨0, true, ⟨1, 7, 0⟩⟩ (by decide),
    c2_amended_test_iff_improvement.2 (fun _ => (1 : ℚ)) 1 ⟨0, 1, false⟩
      (by decide)⟩

/-- C5 fails on the code: the claim's invariant is that state advanced
across eval-only snapshots is detached before reuse.  The egcno validation
loop complies (every scoring state is untracked), but the egcno test loop
reuses a tracked state from its second snapshot on (the advancement at
line 286 of dtdg_egcno_original.py has no detach), and so does the gclstm
validation loop (line 138 of dtdg_gclstm.py). -/
theorem c5_eval_state_tracking :
    Grad.egcnoValStates ⟨true⟩ 3 = [⟨false⟩, ⟨false⟩, ⟨false⟩] ∧
    Grad.egcnoTestStates ⟨true⟩ 2 = [⟨false⟩, ⟨true⟩] ∧
    Grad.gclstmValStates ⟨true⟩ ⟨true⟩ 2 =
      [(⟨false⟩, ⟨false⟩), (⟨true⟩, ⟨true⟩)] := by
  decide

/-- C6: in both scripts, every training epoch accumulates the per-snapshot
criterion terms (positive target ones, negative target zeros) into a single
scalar, and performs exactly one optimizer step, after the whole snapshot
sequence and all loss accumulations, with backward called on the
accumulated total — never one step per snapshot. -/
theorem c6_single_opt_step :
    (∀ (μ Emb : Type) (c : Egcno.Ctx μ Emb) (m0 : μ)
      (res : Egcno.EpochResult μ Emb),
      c.hasEdgeAttr = false → Egcno.trainEpoch c m0 = Except.ok res →
      res.events.count Ev.optStep = 1 ∧
      stepAfterLosses res.events ∧
      Ev.backward res.totalLoss ∈ res.events ∧
      res.totalLoss = (res.trace.map (fun r => r.lossPos + r.lossNeg)).sum) ∧
    (∀ (σ : Type) (c : Gclstm.CtxL σ) (res : Gclstm.EpochResultL σ),
      c.hasEdgeAttr = false → Gclstm.trainEpochL c = Except.ok res →
      res.events.count Ev.optStep = 1 ∧
      stepAfterLosses res.events ∧
      Ev.backward res.loss ∈ res.events ∧
      res.loss = (res.trace.map (fun r => r.lossP + r.lossN)).sum) := by
  constructor
  · intro μ Emb c m0 res hattr hok
    rw [Egcno.trainEpoch_ok c hattr m0, Except.ok.injEq] at hok
    subst hok
    have hnm : Ev.optStep ∉ (List.range c.timeLength).flatMap (Egcno.evAt c m0) := by
      simp [List.mem_flatMap, Egcno.evAt]
    refine ⟨?_, ?_, ?_, ?_⟩
    · simp [List.count_cons, List.count_append, List.count_eq_zero.mpr hnm]
    · have hA : Ev.optStep ∉
          Ev.zeroGrad :: (List.range c.timeLength).flatMap (Egcno.evAt c m0) := by
        simp [List.mem_flatMap, Egcno.evAt]
      have hB : ∀ v, Ev.lossAdd v ∉
          [Ev.backward ((List.range c.timeLength).map (Egcno.lossAt c m0)).sum,
            Ev.optStep] := by
        intro v
        simp
      simpa [List.cons_append] using
        stepAfterLosses_append
          (Ev.zeroGrad :: (List.range c.timeLength).flatMap (Egcno.evAt c m0))
          [Ev.backward ((List.range c.timeLength).map (Egcno.lossAt c m0)).sum,
            Ev.optStep] hA hB
    · simp
    · simp only [List.map_map]
      rfl
  · intro σ c res hattr hok
    rw [Gclstm.trainEpochL_ok c hattr, Except.ok.injEq] at hok
    subst hok
    have hnm : Ev.optStep ∉ (List.range c.timeLength).flatMap (Gclstm.evAtL c) := by
      simp [List.mem_flatMap, Gclstm.evAtL]
    refine ⟨?_, ?_, ?_, ?_⟩
    · simp [List.count_append, List.count_cons, List.count_eq_zero.mpr hnm]
    · have hB : ∀ v, Ev.lossAdd v ∉
          [Ev.backward (Gclstm.lossUpTo c c.timeLength), Ev.optStep,
            Ev.zeroGrad] := by
        intro v
        simp
      exact stepAfterLosses_append
        ((List.range c.timeLength).flatMap (Gclstm.evAtL c))
        [Ev.backward (Gclstm.lossUpTo c c.timeLength), Ev.optStep,
          Ev.zeroGrad] hnm hB
    · simp
    · simp only [List.map_map]
      rfl

/-- Inputs of the one-snapshot EvolveGCN-O run used by the c6 witness. -/
def c6Ctx : Egcno.Ctx Nat Nat :=
  ⟨fun m _ _ => (m + 1, m + 1), fun _ _ => 1, fun _ _ _ => 1, fun _ _ => 0,
    fun _ => [(0, 1)], 1, false, 2⟩

/-- Epoch result of the c6 witness run. -/
def c6Res : Egcno.EpochResult Nat Nat :=
  ⟨1, [⟨[(0, 1)], [1], 1, [(0, 1)], [0], 1, 1⟩], 2,
    [Ev.zeroGrad, Ev.advanceEv [(0, 1)], Ev.lossAdd 1, Ev.lossAdd 1,
      Ev.backward 2, Ev.optStep]⟩

/-- Concrete instance of c6_single_opt_step on a one-snapshot epoch. -/
theorem c6_single_opt_step_witness : c6Res.events.count Ev.optStep = 1 := by
  have hok : Egcno.trainEpoch c6Ctx 0 = Except.ok c6Res := by
    rw [Egcno.trainEpoch_ok c6Ctx rfl 0]
    norm_num [c6Res, c6Ctx, Egcno.recordAt, Egcno.embAt, Egcno.encStateAt,
      Egcno.negDstAt, Egcno.lossAt, Egcno.evAt, Egcno.feedOf, Egcno.numNodes,
      randint, lrange_one, lreplicate_one]
  exact (c6_single_opt_step.1 Nat Nat c6Ctx 0 c6Res rfl hok).1

/-- C8: at every state-advancement site of either script, the advancement
raises the not-implemented error exactly when the split's data has an
edge_attr entry, and when it is absent every feed edge is given the default
weight 1.0 (the weight list has one entry of 1 per feed edge). -/
theorem c8_edge_attr_guard :
    (∀ (μ Emb : Type) (enc : μ → Edges → List ℚ → μ × Emb) (ha : Bool)
      (m : μ) (feed : Edges),
      (∃ s, advanceState enc ha m feed = Except.error s) ↔ ha = true) ∧
    (∀ (μ Emb : Type) (enc : μ → Edges → List ℚ → μ × Emb) (m : μ)
      (feed : Edges) (out : μ × Emb × List ℚ),
      advanceState enc false m feed = Except.ok out →
      out.2.2.length = feed.length ∧ ∀ w ∈ out.2.2, w = (1 : ℚ)) ∧
    (∀ (μ Emb : Type) (c : Egcno.Ctx μ Emb) (m : μ) (t : Nat),
      (∃ s, Egcno.stepBody c m t = Except.error s) ↔ c.hasEdgeAttr = true) ∧
    (∀ (σ : Type) (c : Gclstm.CtxL σ) (s : σ) (loss : ℚ) (t : Nat),
      (∃ e, Gclstm.stepBodyL c s loss t = Except.error e) ↔
        c.hasEdgeAttr = true) := by
  refine ⟨?_, ?_, ?_, ?_⟩
  · intro μ Emb enc ha m feed
    cases ha <;> simp [advanceState, edgeAttrOr]
  · intro μ Emb enc m feed out h
    simp only [advanceState, edgeAttrOr, if_neg Bool.false_ne_true,
      Except.ok.injEq] at h
    rw [← h]
    constructor
    · simp
    · intro w hw
      exact (List.eq_of_mem_replicate hw)
  · intro μ Emb c m t
    cases hb : c.hasEdgeAttr <;>
      simp [Egcno.stepBody, advanceState, edgeAttrOr, hb]
  · intro σ c s loss t
    cases hb : c.hasEdgeAttr <;> simp [Gclstm.stepBodyL, edgeAttrOr, hb]

/-- Concrete instance of c8_edge_attr_guard: with no edge_attr entry, the
weight list built for a single feed edge has length 1. -/
theorem c8_edge_attr_guard_witness :
    ((0, 0, [(1 : ℚ)]) : Nat × Nat × List ℚ).2.2.length =
      ([(0, 1)] : Edges).length :=
  (c8_edge_attr_guard.2.1 Nat Nat (fun m _ _ => (m, m)) 0 [(0, 1)]
    (0, 0, [1]) rfl).1

/-- C9: in the EvolveGCN-O training loop, snapshot t's trace entry draws one
negative destination per positive edge of snapshot t with
torch.randint(0, num_nodes, ...), where num_nodes is the dataset node count
plus one; every sampled value lies below dataset-count + 1, and every value
in that range — including any valid positive destination and the extra
padding id dataset-count — is attainable by some raw draw, since no
exclusion is applied. -/
theorem c9_negative_sampling (μ Emb : Type) (c : Egcno.Ctx μ Emb) (m0 : μ)
    (res : Egcno.EpochResult μ Emb) (hattr : c.hasEdgeAttr = false)
    (hok : Egcno.trainEpoch c m0 = Except.ok res) (t : Nat)
    (ht : t < c.timeLength) :
    res.trace.get? t = some (Egcno.recordAt c m0 t) ∧
    (Egcno.recordAt c m0 t).pos = c.snaps t ∧
    (Egcno.recordAt c m0 t).negDst = (List.range (c.snaps t).length).map
      (fun i => randint 0 (Egcno.numNodes c) (c.draw t i)) ∧
    Egcno.numNodes c = c.dataNumNodes + 1 ∧
    (Egcno.recordAt c m0 t).negDst.length =
      (Egcno.recordAt c m0 t).pos.length ∧
    (∀ v ∈ (Egcno.recordAt c m0 t).negDst, v < c.dataNumNodes + 1) ∧
    (∀ v, v < c.dataNumNodes + 1 →
      ∃ raw, randint 0 (Egcno.numNodes c) raw = v) := by
  rw [Egcno.trainEpoch_ok c hattr m0, Except.ok.injEq] at hok
  subst hok
  refine ⟨?_, rfl, rfl, rfl, ?_, ?_, ?_⟩
  · rw [List.get?_map, List.get?_range ht]
    rfl
  · simp [Egcno.recordAt, Egcno.negDstAt]
  · intro v hv
    simp only [Egcno.recordAt, Egcno.negDstAt, List.mem_map,
      List.mem_range] at hv
    obtain ⟨i, _, hvi⟩ := hv
    rw [← hvi]
    simp only [randint, Egcno.numNodes, Nat.zero_add, Nat.sub_zero]
    exact Nat.mod_lt _ (Nat.succ_pos _)
  · intro v hv
    exact ⟨v, by
      simp only [randint, Egcno.numNodes, Nat.zero_add, Nat.sub_zero]
      exact Nat.mod_eq_of_lt hv⟩

/-- Inputs of the one-snapshot EvolveGCN-O run used by the c9 witness. -/
def c9Ctx : Egcno.Ctx Nat Nat :=
  ⟨fun m _ _ => (m + 1, m), fun _ _ => 0, fun _ _ _ => 0, fun _ i => i + 5,
    fun _ => [(0, 1), (1, 2)], 1, false, 3⟩

/-- Epoch result of the c9 witness run. -/
def c9Res : Egcno.EpochResult Nat Nat :=
  ⟨1, [⟨[(0, 1), (1, 2)], [1, 1], 0, [(0, 1), (1, 2)], [1, 2], 0, 0⟩], 0,
    [Ev.zeroGrad, Ev.advanceEv [(0, 1), (1, 2)], Ev.lossAdd 0, Ev.lossAdd 0,
      Ev.backward 0, Ev.optStep]⟩

/-- Concrete instance of c9_negative_sampling on a one-snapshot epoch. -/
theorem c9_negative_sampling_witness :
    c9Res.trace.get? 0 = some (Egcno.recordAt c9Ctx 0 0) := by
  have hok : Egcno.trainEpoch c9Ctx 0 = Except.ok c9Res := by
    rw [Egcno.trainEpoch_ok c9Ctx rfl 0]
    norm_num [c9Res, c9Ctx, Egcno.recordAt, Egcno.embAt, Egcno.encStateAt,
      Egcno.negDstAt, Egcno.lossAt, Egcno.evAt, Egcno.feedOf, Egcno.numNodes,
      randint, lrange_one, lrange_two, lreplicate_one, lreplicate_two]
  exact (c9_negative_sampling Nat Nat c9Ctx 0 c9Res rfl hok 0 (by decide)).1

/-- C10: in the GC-LSTM script, total_loss is updated with the running loss
value before the current iteration's criterion terms are added, so the
reported accumulator equals the sum over iterations t of (loss accumulated
through iteration t-1) times iteration t's feed-edge count; in particular
the final iteration's criterion terms never enter total_loss, and a
one-snapshot epoch reports total_loss = 0 (also after the division by
num_nodes at line 103). -/
theorem c10_total_loss_lag (σ : Type) (c : Gclstm.CtxL σ)
    (res : Gclstm.EpochResultL σ) (hattr : c.hasEdgeAttr = false)
    (hok : Gclstm.trainEpochL c = Except.ok res) :
    res.totalLoss = ((List.range c.timeLength).map
      (fun t => Gclstm.lossUpTo c t * ((Gclstm.feedL c t).length : ℚ))).sum ∧
    (c.timeLength = 1 → res.totalLoss = 0) ∧
    (c.timeLength = 1 → res.reported = 0) := by
  rw [Gclstm.trainEpochL_ok c hattr, Except.ok.injEq] at hok
  subst hok
  refine ⟨rfl, ?_, ?_⟩
  · intro h1
    rw [h1]
    simp [lrange_one, Gclstm.lossUpTo]
  · intro h1
    rw [h1]
    simp [lrange_one, Gclstm.lossUpTo]

/-- Inputs of the one-snapshot GC-LSTM run used by the c10 witness. -/
def c10Ctx : Gclstm.CtxL Nat :=
  ⟨fun s _ _ => s + 1, fun s _ => (s : ℚ), fun _ _ => 1, fun _ _ _ => [],
    fun _ => [(0, 1)], 1, false, 3, 0⟩

/-- Epoch result of the c10 witness run. -/
def c10Res : Gclstm.EpochResultL Nat :=
  ⟨1, 2, 0, 0, [⟨[(0, 1)], [], [(0, 1)], [1], 1, 0, 1, 1⟩],
    [Ev.advanceEv [(0, 1)], Ev.lossAdd 1, Ev.lossAdd 1, Ev.backward 2,
      Ev.optStep, Ev.zeroGrad]⟩

/-- Concrete instance of c10_total_loss_lag: a one-snapshot epoch reports
total_loss 0. -/
theorem c10_total_loss_lag_witness : c10Res.reported = 0 := by
  have hok : Gclstm.trainEpochL c10Ctx = Except.ok c10Res := by
    rw [Gclstm.trainEpochL_ok c10Ctx rfl]
    norm_num [c10Res, c10Ctx, Gclstm.recordAtL, Gclstm.stateAtL,
      Gclstm.lossTermL, Gclstm.lossUpTo, Gclstm.evAtL, Gclstm.feedL,
      Gclstm.numNodesL, lrange_one, lreplicate_one]
  exact (c10_total_loss_lag Nat c10Ctx c10Res rfl hok).2.2 rfl

end UTG
